import Mathlib

/-!
A shallow embedding of the mcp-obsidian server core (src/index.ts): the
POSIX path functions it uses, the sandbox validator `validatePath`, the
note-name matching logic of `searchNotes`, and the `read_notes`,
`search_notes` and `write_note` tool handlers, over an explicit
filesystem model standing in for the Node `fs` collaborator.

String functions mirror the JavaScript ones (on the POSIX separator and
ASCII case folding).  JavaScript exceptions are modelled with `Except`;
a `try { A } catch { B }` whose `A` throws becomes taking `B`s branch,
which is essential for `validatePath`: the two `throw new Error(...)`
statements that sit *inside* their own `try` blocks (the symlink-escape
throw and the parent-outside-root throw) are swallowed by the enclosing
`catch`, and the embedding reproduces exactly that control flow.
-/

namespace MCPObsidian

/-- JS `a.startsWith(b)`. -/
def strStartsWith (a b : String) : Bool := b.data.isPrefixOf a.data

/-- `xs` occurs as a contiguous sublist of `ys`. -/
def listInfix (xs : List Char) : List Char → Bool
  | [] => xs.isEmpty
  | c :: t => xs.isPrefixOf (c :: t) || listInfix xs t

/-- JS `a.includes(b)` (substring containment). -/
def strIncludes (a b : String) : Bool := listInfix b.data a.data

/-- JS `s.toLowerCase()` (ASCII case folding, as `Char.toLower`). -/
def strToLower (s : String) : String := String.mk (s.data.map Char.toLower)

/-- Split a character list at every character satisfying `p`, keeping
empty pieces — the behaviour of JS `s.split(sep)` for a one-character
separator. -/
def splitPred (p : Char → Bool) : List Char → List (List Char)
  | [] => [[]]
  | c :: rest =>
    match splitPred p rest with
    | [] => [[]]
    | s :: ss => if p c then [] :: s :: ss else (c :: s) :: ss

/-- JS `s.split("/")` (`path.sep` on POSIX). -/
def splitSep (s : String) : List String :=
  (splitPred (fun c => c = '/') s.data).map String.mk

/-- One step of Nodes `normalizeString`: fold the next raw segment onto
the (reversed) stack of resolved segments.  Empty and `.` segments are
skipped; `..` pops a real segment, is kept after another `..` in a
relative path, and is dropped at the root of an absolute path. -/
def normStep (abs : Bool) (acc : List String) (seg : String) : List String :=
  if seg = "" || seg = "." then acc
  else if seg = ".." then
    match acc with
    | [] => if abs then [] else [".."]
    | a :: rest => if a = ".." then ".." :: a :: rest else rest
  else seg :: acc

/-- Resolved segment list of a path (Nodes `normalizeString`). -/
def normSegs (abs : Bool) (segs : List String) : List String :=
  (segs.foldl (normStep abs) []).reverse

/-- Node `path.isAbsolute` (POSIX). -/
def isAbsS (s : String) : Bool := strStartsWith s "/"

/-- The path ends with the separator. -/
def endsWithSep (s : String) : Bool := s.data.getLast? = some '/'

/-- Node `path.normalize` (POSIX): lexical resolution of `.`, `..` and
repeated separators, preserving a trailing separator. -/
def pathNormalize (p : String) : String :=
  if p = "" then "."
  else
    let abs := isAbsS p
    let trail := endsWithSep p
    let core := normSegs abs (splitSep p)
    if core.isEmpty then (if abs then "/" else if trail then "./" else ".")
    else
      let j := String.intercalate "/" core
      let j2 := if trail then j ++ "/" else j
      if abs then "/" ++ j2 else j2

/-- Node `path.resolve` against a working directory assumed absolute:
`path.resolve(p)` for absolute `p`, and `path.resolve(cwd, p)`
otherwise — exactly the two calls at src/index.ts lines 66-68.  The
result is absolute, lexically resolved, with no trailing separator. -/
def pathResolve (cwd p : String) : String :=
  let combined := if isAbsS p then p else cwd ++ "/" ++ p
  let core := normSegs true (splitSep combined)
  if core.isEmpty then "/" else "/" ++ String.intercalate "/" core

/-- Node `path.join` of two parts (POSIX): concatenate the non-empty
parts with a separator and normalize. -/
def pathJoin (a b : String) : String :=
  if a = "" && b = "" then "."
  else if a = "" then pathNormalize b
  else if b = "" then pathNormalize a
  else pathNormalize (a ++ "/" ++ b)

/-- Node `path.dirname` (POSIX): everything before the separator that
precedes the last non-separator run, `/` or `.` when there is none. -/
def pathDirname (p : String) : String :=
  if p.data = [] then "."
  else
    let hasRoot := p.data.head? = some '/'
    let rev2 := (p.data.reverse.dropWhile (fun c => c = '/')).dropWhile (fun c => c ≠ '/')
    match rev2 with
    | [] => if hasRoot then "/" else "."
    | _ :: rest =>
      if rest.reverse = [] then (if hasRoot then "/" else ".") else String.mk rest.reverse

/-- src/index.ts `normalizePath` (line 27): `path.normalize(p).toLowerCase()`. -/
def normalizePath (p : String) : String := strToLower (pathNormalize p)

/-- src/index.ts `expandHome` (line 31). -/
def expandHome (home filepath : String) : String :=
  if strStartsWith filepath "~/" || filepath = "~" then pathJoin home (filepath.drop 1)
  else filepath

/-- Process environment: home directory, working directory, and the
root set (`vaultDirectories`, stored normalized). -/
structure Ctx where
  home : String
  cwd : String
  roots : List String

/-- The `vaultDirectories` construction (src/index.ts line 39). -/
def mkRoots (cwd home arg : String) : List String :=
  [normalizePath (pathResolve cwd (expandHome home arg))]

/-- `vaultDirectories[0]`. -/
def vault0 (ctx : Ctx) : String := ctx.roots.headD ""

/-- Filesystem model for the Node `fs` collaborator: a set of existing
directories, a file map, and a symlink map.  Paths stored in `dirs` and
`files` are canonical (absolute, lexically resolved); a symlink maps
its own canonical path to the canonical path of its target, so symlink
resolution is one lookup. -/
structure FS where
  dirs : List String
  files : List (String × String)
  links : List (String × String)

/-- First-match association-list lookup. -/
def lookupKV (l : List (String × String)) (k : String) : Option String :=
  (l.find? (fun e => e.1 = k)).map (fun e => e.2)

def FS.isDir (fs : FS) (p : String) : Bool := fs.dirs.contains p

def FS.isFile (fs : FS) (p : String) : Bool := (lookupKV fs.files p).isSome

def FS.entryExists (fs : FS) (p : String) : Bool := fs.isDir p || fs.isFile p

/-- `fs.realpath`: a canonical entry resolves to itself; a symlink
resolves to its target when the target exists; everything else fails
(ENOENT), as `fs.realpath` rejects paths that do not exist. -/
def FS.realpath (fs : FS) (p : String) : Option String :=
  if fs.entryExists p then some p
  else
    match lookupKV fs.links p with
    | some t => if fs.entryExists t then some t else none
    | none => none

/-- `fs.access`: succeeds exactly when the (symlink-resolved) path exists. -/
def FS.access (fs : FS) (p : String) : Bool := (fs.realpath p).isSome

/-- The path resolves to an existing directory. -/
def FS.dirExistsR (fs : FS) (p : String) : Bool :=
  match fs.realpath p with
  | some r => fs.isDir r
  | none => false

/-- The proper canonical prefixes of an absolute path, shortest first:
`prefixesOf "/a/b" = ["/a", "/a/b"]`. -/
def prefixesOf (d : String) : List String :=
  let segs := (splitSep d).filter (fun s => s ≠ "")
  (List.range segs.length).map (fun i => "/" ++ String.intercalate "/" (segs.take (i + 1)))

/-- `fs.mkdir(d, { recursive: true })`: a no-op when `d` already
resolves to a directory; fails when some component exists but is not a
directory; otherwise creates every missing component. -/
def FS.mkdirRec (fs : FS) (d : String) : Except String FS :=
  if fs.dirExistsR d then .ok fs
  else if (prefixesOf d).any (fun q => (fs.realpath q).isSome && !fs.dirExistsR q) then
    .error ("ENOTDIR: cannot create directory " ++ d)
  else .ok { fs with dirs := fs.dirs ++ (prefixesOf d).filter (fun q => !fs.dirExistsR q) }

/-- `fs.writeFile(p, content)`: follows a symlink at `p`, refuses to
write a directory (EISDIR), requires the parent directory to exist
(ENOENT), and otherwise records the new contents. -/
def FS.writeFile (fs : FS) (p content : String) : Except String FS :=
  let target := match fs.realpath p with | some r => r | none => p
  if fs.isDir target then .error ("EISDIR: illegal operation on a directory, open " ++ p)
  else if !fs.dirExistsR (pathDirname target) then
    .error ("ENOENT: no such file or directory, open " ++ p)
  else .ok { fs with files := (target, content) :: fs.files }

/-- `fs.readFile(p, "utf-8")`: resolves the path and returns the file
contents; EISDIR on a directory, ENOENT when the path does not exist. -/
def FS.readFile (fs : FS) (p : String) : Except String String :=
  match fs.realpath p with
  | some r =>
    match lookupKV fs.files r with
    | some c => .ok c
    | none => .error ("EISDIR: illegal operation on a directory, read " ++ p)
  | none => .error ("ENOENT: no such file or directory, open " ++ p)

/-- The hidden-segment test of `validatePath` (src/index.ts lines
60-61): split the *raw requested string* on `path.sep` and look for a
segment starting with `.`. -/
def hiddenParts (requestedPath : String) : Bool :=
  (splitSep requestedPath).any (fun part => strStartsWith part ".")

/-- The absolute form of a requested path (src/index.ts lines 65-68). -/
def absoluteOf (ctx : Ctx) (requestedPath : String) : String :=
  pathResolve ctx.cwd (expandHome ctx.home requestedPath)

/-- The root-containment test (src/index.ts lines 73-75, 88-90,
103-105): some root is a bare string prefix of the normalized path. -/
def isAllowed (ctx : Ctx) (normalized : String) : Bool :=
  ctx.roots.any (fun dir => strStartsWith normalized dir)

/-- The `catch` branch of `validatePath` (src/index.ts lines 97-115):
taken whenever the `try` block throws — because `fs.realpath` failed
*or* because the symlink-escape check threw.  The inner
`throw new Error("Access denied - parent directory outside ...")` is
itself inside the inner `try`, so its own `catch` converts it to the
`Parent directory does not exist` error. -/
def validateParent (ctx : Ctx) (fs : FS) (absolute : String) : Except String String :=
  let parentDir := pathDirname absolute
  match fs.realpath parentDir with
  | some realParentPath =>
    if isAllowed ctx (normalizePath realParentPath) then .ok absolute
    else .error ("Parent directory does not exist: " ++ parentDir)
  | none => .error ("Parent directory does not exist: " ++ parentDir)

/-- src/index.ts `validatePath` (lines 58-116).  The symlink-escape
`throw` at line 92 is inside the outer `try`, so it is caught by the
`catch` at line 97 and control continues with the parent-directory
check — hence the `validateParent` call in the not-allowed branch. -/
def validatePath (ctx : Ctx) (fs : FS) (requestedPath : String) : Except String String :=
  if hiddenParts requestedPath then
    .error "Access denied - hidden files/directories not allowed"
  else
    let absolute := absoluteOf ctx requestedPath
    if !isAllowed ctx (normalizePath absolute) then
      .error ("Access denied - path outside allowed directories: " ++ absolute ++
        " not in " ++ String.intercalate ", " ctx.roots)
    else
      match fs.realpath absolute with
      | some realPath =>
        if isAllowed ctx (normalizePath realPath) then .ok realPath
        else validateParent ctx fs absolute
      | none => validateParent ctx fs absolute

/-- src/index.ts line 17: maximum number of search results to return. -/
def SEARCH_LIMIT : Nat := 200

/-- JS `query.replace(/[*]/g, ".*")` (global replacement). -/
def strReplaceStar (s : String) : String :=
  String.mk (s.data.foldr (fun c acc => if c = '*' then '.' :: '*' :: acc else c :: acc) [])

/-- src/index.ts line 159: `query.toLowerCase().split(/\s+/).filter(k => k.length > 0)`.
Splitting on every whitespace character and then discarding empty
pieces yields the same list as splitting on whitespace runs. -/
def queryKeywords (query : String) : List String :=
  ((splitPred (fun c => c.isWhitespace) (strToLower query).data).map String.mk).filter
    (fun k => decide (0 < k.length))

/-- The per-entry matching decision of `searchNotes` (src/index.ts
lines 171-196), for an entry name already known to end in `.md`.
`rtest pattern name` abstracts `new RegExp(pattern, "i").test(name)`,
returning `none` when the constructor throws on a malformed pattern;
the `catch` around it leaves `matches` at `false`, hence `getD false`.
`!keywords.isEmpty` is JS `keywords.length > 0`. -/
def noteMatches (rtest : String → String → Option Bool) (query entryName : String) : Bool :=
  let keywords := queryKeywords query
  let filename := strToLower entryName
  let matches0 :=
    if strIncludes filename (strToLower query) then true
    else (rtest (strReplaceStar query) entryName).getD false
  if !matches0 && !keywords.isEmpty then keywords.any (fun k => strIncludes filename k)
  else matches0

/-- The matching policy as the specification words it (spec 4.3):
three strategies applied in order, first success wins — (1) case-folded
substring, (2) the query with every `*` replaced by match-any-sequence
tested as a case-insensitive pattern, a malformed pattern counting as
non-matching, (3) the query split on whitespace into non-empty
keywords (taken, as in strategy 1, from the case-folded query), any
keyword contained in the case-folded name. -/
def specNoteMatches (rtest : String → String → Option Bool) (query entryName : String) : Bool :=
  if strIncludes (strToLower entryName) (strToLower query) then true
  else if (rtest (strReplaceStar query) entryName).getD false then true
  else (queryKeywords query).any (fun k => strIncludes (strToLower entryName) k)

/-- Remainder of `hay` after the first occurrence of `needle`, if any. -/
def dropAfterFirst (needle : List Char) : List Char → Option (List Char)
  | [] => if needle.isEmpty then some [] else none
  | c :: t =>
    if needle.isPrefixOf (c :: t) then some ((c :: t).drop needle.length)
    else dropAfterFirst needle t

/-- The literal chunks occur in order, possibly with gaps. -/
def chunksMatch : List (List Char) → List Char → Bool
  | [], _ => true
  | n :: rest, s =>
    match dropAfterFirst n s with
    | some s2 => chunksMatch rest s2
    | none => false

/-- Split a pattern into its literal chunks at every `.*` occurrence. -/
def splitDotStar : List Char → List (List Char)
  | [] => [[]]
  | '.' :: '*' :: rest2 =>
    match splitDotStar rest2 with
    | [] => [[]]
    | s :: ss => [] :: s :: ss
  | c :: rest =>
    match splitDotStar rest with
    | [] => [[]]
    | s :: ss => (c :: s) :: ss

/-- A concrete regex semantics for the patterns a star-query produces:
`new RegExp(lit0 ++ ".*" ++ lit1 ++ ..., "i").test(s)` is an
unanchored, case-insensitive search for the literal chunks in order. -/
def wildTest (pattern s : String) : Option Bool :=
  some (chunksMatch ((splitDotStar pattern.data).map (fun cs => cs.map Char.toLower))
    (strToLower s).data)

/-- The `search_notes` reply text (src/index.ts lines 287-303), as a
function of the collected result list. -/
def searchNotesReply (results : List String) : String :=
  let limitedResults := results.take SEARCH_LIMIT
  (if 0 < limitedResults.length then String.intercalate "\n" limitedResults
   else "No matches found") ++
  (if SEARCH_LIMIT < results.length then
    "\n\n... " ++ toString (results.length - SEARCH_LIMIT) ++ " more results not shown."
   else "")

/-- One slot of the `read_notes` handler (src/index.ts lines 260-274):
strip a leading separator, join against the primary root, validate,
read; any thrown error becomes the inline `Error -` entry. -/
def readOneNote (ctx : Ctx) (fs : FS) (filePath : String) : String :=
  let normalizedPath := if strStartsWith filePath "/" then filePath.drop 1 else filePath
  match validatePath ctx fs (pathJoin (vault0 ctx) normalizedPath) with
  | .error e => filePath ++ ": Error - " ++ e
  | .ok validPath =>
    match fs.readFile validPath with
    | .ok content => filePath ++ ":\n" ++ content ++ "\n"
    | .error e => filePath ++ ": Error - " ++ e

/-- The `read_notes` handler text payload (src/index.ts lines 259-278):
one entry per requested path, joined with the separator line. -/
def read_notes (ctx : Ctx) (fs : FS) (paths : List String) : String :=
  String.intercalate "\n---\n" (paths.map (readOneNote ctx fs))

/-- The `write_note` handler (src/index.ts lines 306-348): join
against the primary root, validate, `mkdir -p` the parent of the
validated path, probe existence with `fs.access`, fail when the file
is absent and `createIfNotExists` is false, else write.  Every thrown
error is wrapped as `Failed to write note: ...` by the catch at line
344; the pair carries the resulting filesystem state. -/
def write_note (ctx : Ctx) (fs : FS) (notePath content : String) (createIfNotExists : Bool) :
    Except String String × FS :=
  let fullPath := pathJoin (vault0 ctx) notePath
  match validatePath ctx fs fullPath with
  | .error e => (.error ("Failed to write note: " ++ e), fs)
  | .ok validPath =>
    let directory := pathDirname validPath
    match fs.mkdirRec directory with
    | .error e => (.error ("Failed to write note: " ++ e), fs)
    | .ok fs1 =>
      let fileExists := fs1.access validPath
      if !fileExists && !createIfNotExists then
        (.error ("Failed to write note: File does not exist: " ++ notePath), fs1)
      else
        match fs1.writeFile validPath content with
        | .error e => (.error ("Failed to write note: " ++ e), fs1)
        | .ok fs2 =>
          (.ok ("Successfully " ++ (if fileExists then "updated" else "created") ++
            " note: " ++ notePath), fs2)

/-! ## Concrete environments used by the claim theorems and witnesses -/

/-- A process started as `mcp-obsidian /vault` from `/` with home `/home/u`. -/
def ctxV : Ctx := ⟨"/home/u", "/", mkRoots "/" "/home/u" "/vault"⟩

/-- A vault containing a symlink `/vault/link` whose target
`/outside/secret` is an existing file outside every root. -/
def fsC1 : FS :=
  ⟨["/", "/vault", "/outside"], [("/outside/secret", "top-secret")],
   [("/vault/link", "/outside/secret")]⟩

/-- An empty hidden-file test vault. -/
def fsC2 : FS := ⟨["/", "/vault"], [], []⟩

/-- A sibling directory `/vault2` whose name extends the root `/vault`. -/
def fsC9 : FS := ⟨["/", "/vault", "/vault2"], [("/vault2/x.md", "sibling")], []⟩

/-- A vault containing `/vault/b.md`, used for the `..` over-rejection witness. -/
def fsC10 : FS := ⟨["/", "/vault"], [("/vault/b.md", "B")], []⟩

/-- An empty vault (no subdirectories), for C3. -/
def fsC3 : FS := ⟨["/", "/vault"], [], []⟩

/-- A vault with one readable note, for the C6 witness. -/
def fsC6 : FS := ⟨["/", "/vault"], [("/vault/a.md", "A")], []⟩

/-- A vault whose entry `file.md` is a file, for the C7 counterexample. -/
def fsC7 : FS := ⟨["/", "/vault"], [("/vault/file.md", "F")], []⟩

/-- An empty vault, for the C7 witness. -/
def fsC7w : FS := ⟨["/", "/vault"], [], []⟩

/-- A vault with an existing note and a nested directory, for the C8
round-trip witness. -/
def fsC8 : FS := ⟨["/", "/vault", "/vault/sub"], [("/vault/old.md", "OLD")], []⟩

/-! ## Claim theorems -/

/-- C1.  The claim says: for an existing path whose real
(symlink-resolved) location is not inside any root — in particular a
symlink inside a root pointing outside every root — `validate` fails
with AccessDenied.  The code does not: the symlink-escape `throw`
(line 92) sits inside its own `try`, is caught by the `catch` at line
97, and the parent-directory fallback then *accepts* the path,
returning the unresolved absolute path.  This theorem evaluates the
code at such an input: the real path of `/vault/link` is the
disallowed `/outside/secret`, yet `validatePath` returns
`.ok "/vault/link"` instead of an access-denied error. -/
theorem validatePath_symlink_escape_accepted :
    fsC1.realpath "/vault/link" = some "/outside/secret" ∧
    isAllowed ctxV (normalizePath "/outside/secret") = false ∧
    validatePath ctxV fsC1 "/vault/link" = .ok "/vault/link" :=
  ⟨rfl, rfl, rfl⟩

/-- C2.  Any requested path with a separator-delimited segment starting
with `.` is rejected with the hidden-entry AccessDenied error.  The
filesystem is universally quantified and never consulted: the result
is the same for every `fs`, so the rejection precedes (and is
independent of) any filesystem access, and holds whether or not the
path exists or lies inside a root. -/
theorem validatePath_hidden_segment_rejected (ctx : Ctx) (fs : FS) (req : String)
    (h : hiddenParts req = true) :
    validatePath ctx fs req = .error "Access denied - hidden files/directories not allowed" := by
  simp [validatePath, h]

/-- Witness for C2 at a concrete hidden path. -/
theorem validatePath_hidden_segment_rejected_witness :
    hiddenParts ".obsidian/app.json" = true ∧
    validatePath ctxV fsC2 ".obsidian/app.json" =
      .error "Access denied - hidden files/directories not allowed" :=
  ⟨rfl, validatePath_hidden_segment_rejected ctxV fsC2 ".obsidian/app.json" rfl⟩

/-- C9.  Root containment is a bare normalized-string `startsWith` test
with no separator-boundary requirement: with root `/vault`, the
sibling path `/vault2/x.md` — which is not the root and not below
`root ++ "/"` — is judged inside the root and validated, both when it
exists (the requested-path and real-path checks) and when it does not
(the parent-path check, for `/vault2/y.md`). -/
theorem validatePath_prefix_no_boundary :
    strStartsWith (normalizePath "/vault2/x.md") "/vault" = true ∧
    strStartsWith "/vault2/x.md" ("/vault" ++ "/") = false ∧
    "/vault2/x.md" ≠ "/vault" ∧
    validatePath ctxV fsC9 "/vault2/x.md" = .ok "/vault2/x.md" ∧
    validatePath ctxV fsC9 "/vault2/y.md" = .ok "/vault2/y.md" :=
  ⟨rfl, rfl, by decide, rfl, rfl⟩

/-- C10.  The hidden-segment check splits the raw requested string
before any resolution, and `.` and `..` segments both start with `.`,
so every requested path containing a relative-navigation segment is
rejected with the hidden-entry AccessDenied error, for every
filesystem — lexical `..` traversal through `validatePath` is
impossible, even for paths that would lexically resolve inside a root. -/
theorem validatePath_dot_segments_rejected (ctx : Ctx) (fs : FS) (req : String)
    (h : (splitSep req).any (fun s => s = "." || s = "..") = true) :
    validatePath ctx fs req = .error "Access denied - hidden files/directories not allowed" := by
  have h2 : hiddenParts req = true := by
    unfold hiddenParts
    simp only [List.any_eq_true] at h ⊢
    obtain ⟨s, hs, hp⟩ := h
    refine ⟨s, hs, ?_⟩
    rcases (by simpa using hp : s = "." ∨ s = "..") with rfl | rfl <;> rfl
  simp [validatePath, h2]

/-- Witness for C10: `/vault/a/../b.md` would lexically resolve to the
existing in-root file `/vault/b.md`, yet it is rejected as hidden. -/
theorem validatePath_dot_segments_rejected_witness :
    (splitSep "/vault/a/../b.md").any (fun s => s = "." || s = "..") = true ∧
    pathResolve "/" "/vault/a/../b.md" = "/vault/b.md" ∧
    fsC10.isFile "/vault/b.md" = true ∧
    validatePath ctxV fsC10 "/vault/a/../b.md" =
      .error "Access denied - hidden files/directories not allowed" :=
  ⟨rfl, rfl, rfl,
    validatePath_dot_segments_rejected ctxV fsC10 "/vault/a/../b.md" rfl⟩

/-- C4.  The per-entry matching decision of the code equals the
specifications three-strategy policy — case-folded substring, then the
star-expanded case-insensitive pattern (a malformed pattern counting
as non-matching, never aborting), then keyword-OR — applied in order
with first success winning, for every abstract regex semantics
`rtest`, every query and every entry name; and on the specifications
own example, the star query `a*c` over `abc.md`, `axxxc.md`, `ab.md`
selects exactly `/abc.md` and `/axxxc.md`, each entry contributing at
most one result. -/
theorem noteMatches_eq_spec_policy :
    (∀ (rtest : String → String → Option Bool) (query entryName : String),
      noteMatches rtest query entryName = specNoteMatches rtest query entryName) ∧
    (["abc.md", "axxxc.md", "ab.md"].filter (fun n => noteMatches wildTest "a*c" n)).map
      (fun n => "/" ++ n) = ["/abc.md", "/axxxc.md"] := by
  constructor
  · intro rtest query entryName
    unfold noteMatches specNoteMatches
    cases h1 : strIncludes (strToLower entryName) (strToLower query) <;>
    cases h2 : (rtest (strReplaceStar query) entryName).getD false <;>
    cases hk : queryKeywords query <;>
    simp [h1, h2, hk]
  · rfl

/-- C5.  The `search_notes` reply: an empty result list yields the
explicit `No matches found` indicator; a non-empty list within the
limit is listed in full with no trailing note; past the limit exactly
the first `SEARCH_LIMIT` collected paths are shown followed by a note
stating how many additional matches were omitted; and the shown list
never exceeds `SEARCH_LIMIT` entries. -/
theorem searchNotesReply_spec (results : List String) :
    (results = [] → searchNotesReply results = "No matches found") ∧
    (results ≠ [] → results.length ≤ SEARCH_LIMIT →
      searchNotesReply results = String.intercalate "\n" results) ∧
    (SEARCH_LIMIT < results.length →
      searchNotesReply results =
        String.intercalate "\n" (results.take SEARCH_LIMIT) ++
          ("\n\n... " ++ toString (results.length - SEARCH_LIMIT) ++
            " more results not shown.")) ∧
    (results.take SEARCH_LIMIT).length ≤ SEARCH_LIMIT := by
  refine ⟨?_, ?_, ?_, ?_⟩
  · rintro rfl; rfl
  · intro hne hle
    have h0 : 0 < results.length := List.length_pos.mpr hne
    have h2 : ¬SEARCH_LIMIT < results.length := by omega
    simp only [searchNotesReply]
    rw [List.take_of_length_le hle, if_pos h0, if_neg h2]
    simp
  · intro hgt
    have h0 : 0 < (results.take SEARCH_LIMIT).length := by
      simp only [List.length_take, SEARCH_LIMIT]
      simp only [SEARCH_LIMIT] at hgt
      omega
    simp only [searchNotesReply]
    rw [if_pos h0, if_pos hgt]
  · simp only [List.length_take, SEARCH_LIMIT]
    omega

/-- Witness for C5: the empty, small and overflowing (201-element)
result lists. -/
theorem searchNotesReply_spec_witness :
    searchNotesReply [] = "No matches found" ∧
    searchNotesReply ["alpha.md"] = "alpha.md" ∧
    searchNotesReply (List.replicate 201 "p.md") =
      String.intercalate "\n" (List.replicate 200 "p.md") ++
        ("\n\n... " ++ toString (1 : Nat) ++ " more results not shown.") := by
  refine ⟨(searchNotesReply_spec []).1 rfl, ?_, ?_⟩
  · rw [(searchNotesReply_spec ["alpha.md"]).2.1 (by decide) (by decide)]
    rfl
  · have hgt : SEARCH_LIMIT < (List.replicate 201 "p.md").length := by
      rw [List.length_replicate]
      simp only [SEARCH_LIMIT]
      omega
    rw [(searchNotesReply_spec (List.replicate 201 "p.md")).2.2.1 hgt]
    rw [List.take_replicate, List.length_replicate]
    norm_num [SEARCH_LIMIT]

/-- C6.  `read_notes` returns exactly one entry per requested path,
joined with the separator line, slot `i` corresponding to input path
`i`; and every slot is total — either the success entry
`path:\ncontent\n` or the inline `path: Error - message` entry, so a
failure on one path never aborts the others and the operation as a
whole always produces a text payload. -/
theorem read_notes_per_path (ctx : Ctx) (fs : FS) (paths : List String) :
    read_notes ctx fs paths = String.intercalate "\n---\n" (paths.map (readOneNote ctx fs)) ∧
    (paths.map (readOneNote ctx fs)).length = paths.length ∧
    (∀ (i : Nat) (h : i < paths.length),
      (paths.map (readOneNote ctx fs)).get ⟨i, by simpa using h⟩ =
        readOneNote ctx fs (paths.get ⟨i, h⟩)) ∧
    (∀ p : String,
      (∃ c, readOneNote ctx fs p = p ++ ":\n" ++ c ++ "\n") ∨
      (∃ m, readOneNote ctx fs p = p ++ ": Error - " ++ m)) := by
  refine ⟨rfl, by simp, ?_, ?_⟩
  · intro i h
    simp [List.get_eq_getElem, List.getElem_map]
  · intro p
    simp only [readOneNote]
    split
    · exact Or.inr ⟨_, rfl⟩
    · split
      · exact Or.inl ⟨_, rfl⟩
      · exact Or.inr ⟨_, rfl⟩

/-- Witness for C6: a mixed batch of one valid and one escaping path
yields one content entry and one inline error entry, in order. -/
theorem read_notes_per_path_witness :
    read_notes ctxV fsC6 ["a.md", "../e.md"] =
      "a.md:\nA\n\n---\n../e.md: Error - Access denied - path outside allowed directories: /e.md not in /vault" ∧
    (["a.md", "../e.md"].map (readOneNote ctxV fsC6)).get ⟨1, by simp⟩ =
      readOneNote ctxV fsC6 (["a.md", "../e.md"].get ⟨1, by decide⟩) := by
  refine ⟨?_, (read_notes_per_path ctxV fsC6 ["a.md", "../e.md"]).2.2.1 1 (by decide)⟩
  rw [(read_notes_per_path ctxV fsC6 ["a.md", "../e.md"]).1]
  rfl

/-- C3, counterexample.  The claim says a `write_note` whose
intermediate directories are missing creates them and then writes
successfully.  It does not: with `/vault/sub` absent, validation —
which runs before the `mkdir` — rejects the target with the
parent-missing error, `write_note` fails, and the filesystem is
returned unchanged (no directory is created, nothing is written). -/
theorem write_note_missing_intermediate_dirs_cex :
    fsC3.realpath "/vault/sub" = none ∧
    write_note ctxV fsC3 "sub/note.md" "hello" true =
      (.error "Failed to write note: Parent directory does not exist: /vault/sub", fsC3) :=
  ⟨rfl, rfl⟩

/-- C3, amended.  When the target and its parent directory are both
missing (the only way an intermediate directory can be missing),
`write_note` fails with the parent-missing error and performs no
filesystem mutation; it never creates intermediate directories,
because `validatePath` rejects a missing parent before the `mkdir`
step runs (so when validation passes, the resolved parent already
exists and the `mkdir` is a no-op). -/
theorem write_note_missing_parent_no_mutation (ctx : Ctx) (fs : FS)
    (notePath content : String) (flag : Bool)
    (hh : hiddenParts (pathJoin (vault0 ctx) notePath) = false)
    (ha : isAllowed ctx (normalizePath (absoluteOf ctx (pathJoin (vault0 ctx) notePath))) = true)
    (hp : fs.realpath (absoluteOf ctx (pathJoin (vault0 ctx) notePath)) = none)
    (hpp : fs.realpath (pathDirname (absoluteOf ctx (pathJoin (vault0 ctx) notePath))) = none) :
    write_note ctx fs notePath content flag =
      (.error ("Failed to write note: " ++ ("Parent directory does not exist: " ++
        pathDirname (absoluteOf ctx (pathJoin (vault0 ctx) notePath)))), fs) := by
  simp only [write_note, validatePath, validateParent, hh, ha, hp, hpp]
  rfl

/-- Witness for the amended C3 at a concrete missing-directory target. -/
theorem write_note_missing_parent_no_mutation_witness :
    fsC3.realpath (absoluteOf ctxV (pathJoin (vault0 ctxV) "d/e.md")) = none ∧
    write_note ctxV fsC3 "d/e.md" "x" false =
      (.error ("Failed to write note: " ++ ("Parent directory does not exist: " ++
        pathDirname (absoluteOf ctxV (pathJoin (vault0 ctxV) "d/e.md")))), fsC3) :=
  ⟨rfl, write_note_missing_parent_no_mutation ctxV fsC3 "d/e.md" "x" false rfl rfl rfl rfl⟩

/-- C7, counterexample.  The claim says every `write_note` with
`createIfNotExists = false` on a validated path whose target is absent
fails with the NotFound condition.  Not always: for target
`file.md/sub.md`, whose parent `/vault/file.md` is an existing *file*,
the path validates (via the parent-realpath branch) and the target is
absent, but the `mkdir` step fails first, so the operation fails with
an mkdir IO error, not with the `File does not exist` condition — the
filesystem is still unchanged. -/
theorem write_note_noCreate_parent_file_cex :
    validatePath ctxV fsC7 (pathJoin (vault0 ctxV) "file.md/sub.md") =
      .ok "/vault/file.md/sub.md" ∧
    fsC7.realpath "/vault/file.md/sub.md" = none ∧
    write_note ctxV fsC7 "file.md/sub.md" "x" false =
      (.error "Failed to write note: ENOTDIR: cannot create directory /vault/file.md", fsC7) :=
  ⟨rfl, rfl, rfl⟩

/-- C7, amended.  With `createIfNotExists = false`, a validated path
whose target is absent and whose resolved parent is an existing
directory makes `write_note` fail with the NotFound condition
(`File does not exist`) and perform no filesystem mutation: the
returned state is exactly the input state. -/
theorem write_note_noCreate_absent_notFound (ctx : Ctx) (fs : FS)
    (notePath content vp : String)
    (hv : validatePath ctx fs (pathJoin (vault0 ctx) notePath) = .ok vp)
    (habs : fs.realpath vp = none)
    (hdir : fs.dirExistsR (pathDirname vp) = true) :
    write_note ctx fs notePath content false =
      (.error ("Failed to write note: File does not exist: " ++ notePath), fs) := by
  simp [write_note, FS.mkdirRec, FS.access, hv, hdir, habs]

/-- Witness for the amended C7 at a concrete absent target. -/
theorem write_note_noCreate_absent_notFound_witness :
    validatePath ctxV fsC7w (pathJoin (vault0 ctxV) "new.md") = .ok "/vault/new.md" ∧
    write_note ctxV fsC7w "new.md" "c" false =
      (.error ("Failed to write note: File does not exist: " ++ "new.md"), fsC7w) :=
  ⟨rfl, write_note_noCreate_absent_notFound ctxV fsC7w "new.md" "c" "/vault/new.md" rfl rfl rfl⟩

/-! ## Helper lemmas for the round-trip proof -/

theorem lookupKV_cons (t v k : String) (l : List (String × String)) :
    lookupKV ((t, v) :: l) k = if t = k then some v else lookupKV l k := by
  by_cases h : t = k <;> simp [lookupKV, List.find?, h]

theorem realpath_of_entry (fs : FS) (x : String) (h : fs.entryExists x = true) :
    fs.realpath x = some x := by
  simp [FS.realpath, h]

theorem realpath_entry_of_some (fs : FS) (x r : String) (h : fs.realpath x = some r) :
    fs.entryExists r = true := by
  unfold FS.realpath at h
  by_cases he : fs.entryExists x = true
  · simp [he] at h
    rw [← h]
    exact he
  · simp [he] at h
    rcases hl : lookupKV fs.links x with _ | u
    · rw [hl] at h
      simp at h
    · rw [hl] at h
      by_cases ht : fs.entryExists u = true
      · simp [ht] at h
        rw [← h]
        exact ht
      · simp [ht] at h

theorem realpath_some_elim (fs : FS) (x r : String) (h : fs.realpath x = some r) :
    (fs.entryExists x = true ∧ r = x) ∨
    (fs.entryExists x = false ∧ lookupKV fs.links x = some r ∧ fs.entryExists r = true) := by
  unfold FS.realpath at h
  by_cases he : fs.entryExists x = true
  · simp [he] at h
    exact Or.inl ⟨he, h.symm⟩
  · have he2 : fs.entryExists x = false := by simpa using he
    simp [he2] at h
    rcases hl : lookupKV fs.links x with _ | u
    · rw [hl] at h
      simp at h
    · rw [hl] at h
      by_cases ht : fs.entryExists u = true
      · simp [ht] at h
        exact Or.inr ⟨he2, by rw [h], by rw [← h]; exact ht⟩
      · simp [ht] at h

theorem entryExists_consFile (fs : FS) (t v x : String) :
    (FS.mk fs.dirs ((t, v) :: fs.files) fs.links).entryExists x =
      ((t = x) || fs.entryExists x) := by
  by_cases h : t = x <;>
    simp [FS.entryExists, FS.isFile, FS.isDir, lookupKV_cons, h]

/-- Elimination for a successful parent-branch validation: the parent
directorys real path exists and is allowed, and the unresolved
absolute path is returned. -/
theorem validateParent_ok_facts (ctx : Ctx) (fs : FS) (a vp : String)
    (h : validateParent ctx fs a = .ok vp) :
    vp = a ∧ ∃ rp, fs.realpath (pathDirname a) = some rp ∧
      isAllowed ctx (normalizePath rp) = true := by
  simp only [validateParent] at h
  rcases hrp : fs.realpath (pathDirname a) with _ | rp
  · rw [hrp] at h
    simp at h
  · rw [hrp] at h
    have h2 : (if isAllowed ctx (normalizePath rp) = true then Except.ok a
        else Except.error ("Parent directory does not exist: " ++ pathDirname a)) =
        (Except.ok vp : Except String String) := h
    cases hpa : isAllowed ctx (normalizePath rp) with
    | false =>
      rw [hpa] at h2
      simp at h2
    | true =>
      rw [hpa, if_pos rfl] at h2
      have ha2 : a = vp := by simpa using h2
      exact ⟨ha2.symm, rp, rfl, hpa⟩

/-- Elimination for a successful validation: the hidden check and the
requested-path containment check passed, and the result came either
from the real-path branch (the real path exists and is allowed) or
from the parent branch (the result is the unresolved absolute path,
the parents real path exists and is allowed, and the `try` block threw
— the path does not exist, or its real path is not allowed). -/
theorem validatePath_ok_facts (ctx : Ctx) (fs : FS) (req vp : String)
    (hv : validatePath ctx fs req = .ok vp) :
    hiddenParts req = false ∧
    isAllowed ctx (normalizePath (absoluteOf ctx req)) = true ∧
    ((fs.realpath (absoluteOf ctx req) = some vp ∧
      isAllowed ctx (normalizePath vp) = true) ∨
     (vp = absoluteOf ctx req ∧
      (∃ rp, fs.realpath (pathDirname (absoluteOf ctx req)) = some rp ∧
        isAllowed ctx (normalizePath rp) = true) ∧
      (fs.realpath (absoluteOf ctx req) = none ∨
       ∃ r, fs.realpath (absoluteOf ctx req) = some r ∧
         isAllowed ctx (normalizePath r) = false))) := by
  unfold validatePath at hv
  cases hh : hiddenParts req with
  | true => rw [hh] at hv; simp at hv
  | false =>
    rw [hh] at hv
    simp only [Bool.false_eq_true, if_false] at hv
    cases ha : isAllowed ctx (normalizePath (absoluteOf ctx req)) with
    | false => rw [ha] at hv; simp at hv
    | true =>
      rw [ha] at hv
      simp only [Bool.not_true, Bool.false_eq_true, if_false] at hv
      refine ⟨rfl, rfl, ?_⟩
      rcases hr : fs.realpath (absoluteOf ctx req) with _ | r
      · rw [hr] at hv
        have hv2 : validateParent ctx fs (absoluteOf ctx req) = .ok vp := hv
        obtain ⟨hvp, rp, hrp, hpa⟩ := validateParent_ok_facts ctx fs _ vp hv2
        exact Or.inr ⟨hvp, ⟨rp, hrp, hpa⟩, Or.inl rfl⟩
      · rw [hr] at hv
        have hv2 : (if isAllowed ctx (normalizePath r) = true then Except.ok r
            else validateParent ctx fs (absoluteOf ctx req)) = Except.ok vp := hv
        cases hra : isAllowed ctx (normalizePath r) with
        | true =>
          rw [hra, if_pos rfl] at hv2
          have hrv : r = vp := by simpa using hv2
          subst hrv
          exact Or.inl ⟨rfl, hra⟩
        | false =>
          rw [hra] at hv2
          simp only [Bool.false_eq_true, if_false] at hv2
          obtain ⟨hvp, rp, hrp, hpa⟩ := validateParent_ok_facts ctx fs _ vp hv2
          exact Or.inr ⟨hvp, ⟨rp, hrp, hpa⟩, Or.inr ⟨r, rfl, hra⟩⟩

/-- C8.  Round-trip: for every vault-relative path `p` (no leading
separator) that validates against a filesystem whose resolved parent
of the validated path is an existing directory, a successful
`write_note p c` followed by reading `p` returns exactly the entry
`p:\ncontent\n` with content `c` — across all four ways the write can
have resolved (existing file, existing file behind a symlink,
fresh file, and file behind a root-escaping symlink). -/
theorem write_read_roundtrip (ctx : Ctx) (fs : FS) (p c : String) (flag : Bool)
    (msg : String) (fs2 : FS) (vp : String)
    (hrel : strStartsWith p "/" = false)
    (hv : validatePath ctx fs (pathJoin (vault0 ctx) p) = .ok vp)
    (hdir : fs.dirExistsR (pathDirname vp) = true)
    (hw : write_note ctx fs p c flag = (.ok msg, fs2)) :
    readOneNote ctx fs2 p = p ++ ":\n" ++ c ++ "\n" := by
  obtain ⟨hh, ha, hcases⟩ := validatePath_ok_facts ctx fs (pathJoin (vault0 ctx) p) vp hv
  have hmk : fs.mkdirRec (pathDirname vp) = .ok fs := by
    simp [FS.mkdirRec, hdir]
  simp only [write_note, hv, hmk] at hw
  split at hw
  · simp at hw
  · rcases hwx : fs.writeFile vp c with e | fsW
    · rw [hwx] at hw
      simp at hw
    · rw [hwx] at hw
      have hfs2 : fsW = fs2 := congrArg Prod.snd hw
      subst hfs2
      clear hw
      rcases hcases with ⟨hr, hra⟩ | ⟨hvabs, ⟨rp, hrp, hrpa⟩, hdisj⟩
      · -- the real path of the absolute form exists and is allowed
        have hev : fs.entryExists vp = true := realpath_entry_of_some fs _ vp hr
        have htar : fs.realpath vp = some vp := realpath_of_entry fs vp hev
        simp only [FS.writeFile, htar] at hwx
        cases hnd : fs.isDir vp with
        | true => rw [hnd] at hwx; simp at hwx
        | false =>
          rw [hnd] at hwx
          simp only [Bool.false_eq_true, if_false] at hwx
          cases hpd : fs.dirExistsR (pathDirname vp) with
          | false => rw [hpd] at hwx; simp at hwx
          | true =>
            rw [hpd] at hwx
            simp only [Bool.not_true, Bool.false_eq_true, if_false] at hwx
            have hfsW : fsW = FS.mk fs.dirs ((vp, c) :: fs.files) fs.links := by
              simpa using hwx.symm
            rcases realpath_some_elim fs _ vp hr with ⟨hea, hrx⟩ | ⟨hea, hl, hevp⟩
            · -- the absolute form itself exists: vp is the absolute form
              subst hrx
              have he2 : fsW.entryExists (absoluteOf ctx (pathJoin (vault0 ctx) p)) = true := by
                rw [hfsW, entryExists_consFile]
                simp
              have hreal2 : fsW.realpath (absoluteOf ctx (pathJoin (vault0 ctx) p)) =
                  some (absoluteOf ctx (pathJoin (vault0 ctx) p)) := realpath_of_entry _ _ he2
              have hlk : lookupKV fsW.files (absoluteOf ctx (pathJoin (vault0 ctx) p)) =
                  some c := by
                rw [hfsW]
                simp [lookupKV_cons]
              have hrf : fsW.readFile (absoluteOf ctx (pathJoin (vault0 ctx) p)) = .ok c := by
                simp [FS.readFile, hreal2, hlk]
              have hv2 : validatePath ctx fsW (pathJoin (vault0 ctx) p) =
                  .ok (absoluteOf ctx (pathJoin (vault0 ctx) p)) := by
                simp [validatePath, hh, ha, hreal2]
              simp [readOneNote, hrel, hv2, hrf]
            · -- the absolute form is a symlink to vp
              have hne : vp ≠ absoluteOf ctx (pathJoin (vault0 ctx) p) := by
                intro hEq
                rw [hEq] at hev
                rw [hev] at hea
                simp at hea
              have he2 : fsW.entryExists (absoluteOf ctx (pathJoin (vault0 ctx) p)) = false := by
                rw [hfsW, entryExists_consFile]
                simp [hea, hne]
              have he3 : fsW.entryExists vp = true := by
                rw [hfsW, entryExists_consFile]
                simp
              have hreal2 : fsW.realpath (absoluteOf ctx (pathJoin (vault0 ctx) p)) =
                  some vp := by
                rw [hfsW]
                simp [FS.realpath, entryExists_consFile, hea, hne, hl]
              have hlk : lookupKV fsW.files vp = some c := by
                rw [hfsW]
                simp [lookupKV_cons]
              have hrf : fsW.readFile vp = .ok c := by
                simp [FS.readFile, realpath_of_entry _ _ he3, hlk]
              have hv2 : validatePath ctx fsW (pathJoin (vault0 ctx) p) = .ok vp := by
                simp [validatePath, hh, ha, hreal2, hra]
              simp [readOneNote, hrel, hv2, hrf]
      · -- parent branch: vp is the unresolved absolute form
        subst hvabs
        rcases hdisj with hr0 | ⟨r, hr1, hrna⟩
        · -- the absolute form does not exist: a fresh file
          simp only [FS.writeFile, hr0] at hwx
          cases hnd : fs.isDir (absoluteOf ctx (pathJoin (vault0 ctx) p)) with
          | true => rw [hnd] at hwx; simp at hwx
          | false =>
            rw [hnd] at hwx
            simp only [Bool.false_eq_true, if_false] at hwx
            cases hpd : fs.dirExistsR (pathDirname (absoluteOf ctx (pathJoin (vault0 ctx) p))) with
            | false => rw [hpd] at hwx; simp at hwx
            | true =>
              rw [hpd] at hwx
              simp only [Bool.not_true, Bool.false_eq_true, if_false] at hwx
              have hfsW : fsW = FS.mk fs.dirs
                  ((absoluteOf ctx (pathJoin (vault0 ctx) p), c) :: fs.files) fs.links := by
                simpa using hwx.symm
              have he2 : fsW.entryExists (absoluteOf ctx (pathJoin (vault0 ctx) p)) = true := by
                rw [hfsW, entryExists_consFile]
                simp
              have hreal2 : fsW.realpath (absoluteOf ctx (pathJoin (vault0 ctx) p)) =
                  some (absoluteOf ctx (pathJoin (vault0 ctx) p)) := realpath_of_entry _ _ he2
              have hlk : lookupKV fsW.files (absoluteOf ctx (pathJoin (vault0 ctx) p)) =
                  some c := by
                rw [hfsW]
                simp [lookupKV_cons]
              have hrf : fsW.readFile (absoluteOf ctx (pathJoin (vault0 ctx) p)) = .ok c := by
                simp [FS.readFile, hreal2, hlk]
              have hv2 : validatePath ctx fsW (pathJoin (vault0 ctx) p) =
                  .ok (absoluteOf ctx (pathJoin (vault0 ctx) p)) := by
                simp [validatePath, hh, ha, hreal2]
              simp [readOneNote, hrel, hv2, hrf]
        · -- the absolute form is a symlink whose target escapes the roots
          rcases realpath_some_elim fs _ r hr1 with ⟨hea, hrx⟩ | ⟨hea, hl, her⟩
          · rw [hrx] at hrna
            rw [ha] at hrna
            simp at hrna
          · have hner : r ≠ absoluteOf ctx (pathJoin (vault0 ctx) p) := by
              intro hEq
              rw [hEq] at her
              rw [her] at hea
              simp at hea
            simp only [FS.writeFile, hr1] at hwx
            cases hnd : fs.isDir r with
            | true => rw [hnd] at hwx; simp at hwx
            | false =>
              rw [hnd] at hwx
              simp only [Bool.false_eq_true, if_false] at hwx
              cases hpd : fs.dirExistsR (pathDirname r) with
              | false => rw [hpd] at hwx; simp at hwx
              | true =>
                rw [hpd] at hwx
                simp only [Bool.not_true, Bool.false_eq_true, if_false] at hwx
                have hfsW : fsW = FS.mk fs.dirs ((r, c) :: fs.files) fs.links := by
                  simpa using hwx.symm
                have hird : fs.isDir rp = true := by
                  have h := hdir
                  simp only [FS.dirExistsR, hrp] at h
                  exact h
                have hdr : pathDirname (absoluteOf ctx (pathJoin (vault0 ctx) p)) ≠ r := by
                  intro hEq
                  rw [hEq] at hrp
                  rw [realpath_of_entry fs r her] at hrp
                  have hrr : r = rp := by simpa using hrp
                  rw [← hrr] at hird
                  rw [hird] at hnd
                  simp at hnd
                have he2 : fsW.entryExists (absoluteOf ctx (pathJoin (vault0 ctx) p)) =
                    false := by
                  rw [hfsW, entryExists_consFile]
                  simp [hea, hner]
                have hreal2 : fsW.realpath (absoluteOf ctx (pathJoin (vault0 ctx) p)) =
                    some r := by
                  rw [hfsW]
                  simp [FS.realpath, entryExists_consFile, hea, hner, hl]
                have hlk : lookupKV fsW.files r = some c := by
                  rw [hfsW]
                  simp [lookupKV_cons]
                have hrf : fsW.readFile (absoluteOf ctx (pathJoin (vault0 ctx) p)) = .ok c := by
                  simp [FS.readFile, hreal2, hlk]
                have hrp2 : fsW.realpath
                    (pathDirname (absoluteOf ctx (pathJoin (vault0 ctx) p))) = some rp := by
                  rcases realpath_some_elim fs _ rp hrp with ⟨hed, hrdx⟩ | ⟨hed, hld, herp⟩
                  · rw [hrdx]
                    apply realpath_of_entry
                    rw [hfsW, entryExists_consFile]
                    simp [hed]
                  · rw [hfsW]
                    simp [FS.realpath, entryExists_consFile, hed, hld, herp, Ne.symm hdr]
                have hvp2 : validateParent ctx fsW
                    (absoluteOf ctx (pathJoin (vault0 ctx) p)) =
                    .ok (absoluteOf ctx (pathJoin (vault0 ctx) p)) := by
                  simp [validateParent, hrp2, hrpa]
                have hv2 : validatePath ctx fsW (pathJoin (vault0 ctx) p) =
                    .ok (absoluteOf ctx (pathJoin (vault0 ctx) p)) := by
                  simp [validatePath, hh, ha, hreal2, hrna, hvp2]
                simp [readOneNote, hrel, hv2, hrf]

/-- Witness for C8: writing a fresh note `sub/new.md` and reading it
back returns exactly the written content. -/
theorem write_read_roundtrip_witness :
    write_note ctxV fsC8 "sub/new.md" "hello" true =
      (.ok "Successfully created note: sub/new.md",
        FS.mk fsC8.dirs (("/vault/sub/new.md", "hello") :: fsC8.files) fsC8.links) ∧
    readOneNote ctxV
      (FS.mk fsC8.dirs (("/vault/sub/new.md", "hello") :: fsC8.files) fsC8.links)
      "sub/new.md" = "sub/new.md" ++ ":\n" ++ "hello" ++ "\n" :=
  ⟨rfl, write_read_roundtrip ctxV fsC8 "sub/new.md" "hello" true
    "Successfully created note: sub/new.md"
    (FS.mk fsC8.dirs (("/vault/sub/new.md", "hello") :: fsC8.files) fsC8.links)
    "/vault/sub/new.md" rfl rfl rfl rfl⟩

end MCPObsidian
